import Mathlib

/-!
Verification of the UDISE education-data pipeline
(`src/data_processing.py`, `src/analysis.py`).

Tables are embedded as lists of named columns with row-major cell data.
Pandas cells are numeric (modelled as `ℚ`; the sources use float64, whose
arithmetic on the small inputs considered here is exact), text, or missing
(`NaN`).  Pandas column dtypes are carried explicitly on the table, since a
dtype is not always recoverable from the cell data (e.g. an empty frame
keeps its dtypes).
-/

namespace UDISE

/-- A cell of a pandas DataFrame: a numeric value, a text value, or `NaN`. -/
inductive Cell where
  | num (q : ℚ)
  | str (s : String)
  | missing
deriving DecidableEq

/-- The pandas dtype of a column, as far as the analysis code discriminates:
`analysis.py` tests membership in `['object', 'string']` and in
`['int64', 'float64']`; anything else (bool, datetime, ...) is `otherT`. -/
inductive Dtype where
  | int64
  | float64
  | obj
  | otherT
deriving DecidableEq

/-- An in-memory table (pandas DataFrame): ordered column names, their
dtypes (aligned positionally with `cols`), and row-major cell data. -/
structure Table where
  cols : List String
  dtypes : List Dtype
  rows : List (List Cell)
deriving DecidableEq

/-- Cell of row `r` at the column named `c`, given the table's column list
(positional lookup; a name not present, or a short row, reads as `missing`). -/
def getCellAt : List String → List Cell → String → Cell
  | [], _, _ => Cell.missing
  | _ :: _, [], _ => Cell.missing
  | c' :: cs, x :: xs, c => if c' = c then x else getCellAt cs xs c

/-- Cell of row `r` of table `t` at column `c`. -/
def Table.cell (t : Table) (r : List Cell) (c : String) : Cell :=
  getCellAt t.cols r c

/-- The sequence of values of column `c` of table `t`, one per row. -/
def columnValues (t : Table) (c : String) : List Cell :=
  t.rows.map (fun r => t.cell r c)

/-- Predicate `startsWithChars p l` : `p` is an initial segment of `l`. -/
def startsWithChars : List Char → List Char → Bool
  | [], _ => true
  | _ :: _, [] => false
  | a :: as, b :: bs => a = b && startsWithChars as bs

/-- Predicate `containsChars nd l` : `nd` occurs as a contiguous segment of `l`. -/
def containsChars (nd : List Char) : List Char → Bool
  | [] => nd.isEmpty
  | c :: rest => startsWithChars nd (c :: rest) || containsChars nd rest

/-- Python's `sub in s.lower()`: the keyword `sub` occurs in the
lower-cased column name `s`. -/
def lowerHas (s sub : String) : Bool :=
  containsChars sub.data (s.data.map Char.toLower)

/-! ## Dataset Fusion Engine (`UDISEDataProcessor.merge_datasets`) -/

/-- The fixed priority list of join-key aliases tried by `merge_datasets`
(`data_processing.py` line 177). -/
def possibleKeys : List String :=
  ["pseudocode", "School_Code", "DISE_Code", "UDISE_Code",
   "school_code", "dise_code", "udise_code", "udisecode"]

/-- Join-key resolution: the first alias of `possibleKeys` present among the
primary table's column names (`data_processing.py` lines 180-184). -/
def resolveKey (t : Table) : Option String :=
  possibleKeys.find? (fun k => t.cols.contains k)

/-- Indices of the right table's columns kept by a pandas merge on `key`
(every column except the key itself, which is not duplicated). -/
def keptIdxs (rt : Table) (key : String) : List ℕ :=
  (List.range rt.cols.length).filter (fun i => rt.cols.getD i "" ≠ key)

/-- Pandas suffix rule with `suffixes=('', suffix)`: a right column whose
name collides with a left column is renamed by appending `suffix`; left
columns keep their names. -/
def renameRight (leftCols : List String) (suffix c : String) : String :=
  if leftCols.contains c then c ++ suffix else c

/-- Rows of `t` whose `key`-cell equals `v`.  Pandas merges match `NaN`
keys with each other, which `Cell` equality reproduces (`missing = missing`). -/
def matchingRows (t : Table) (key : String) (v : Cell) : List (List Cell) :=
  t.rows.filter (fun m => t.cell m key = v)

/-- Row block of a left-outer join: each left row is paired with every
matching right row, or padded with `missing` when no right row matches. -/
def mergeRows (lcols : List String) (rt : Table) (key : String)
    (kept : List ℕ) : List (List Cell) → List (List Cell)
  | [] => []
  | r :: rest =>
      (match matchingRows rt key (getCellAt lcols r key) with
       | [] => [r ++ kept.map (fun _ => Cell.missing)]
       | ms => ms.map (fun m => r ++ kept.map (fun i => m.getD i Cell.missing)))
      ++ mergeRows lcols rt key kept rest

/-- Embeds `lt.merge(rt, on=key, how='left', suffixes=('', suffix))`.  All left
rows are preserved in order; right columns other than the key are appended,
suffixed on name collision.  (Pandas may upcast an int64 right column to
float64 when unmatched rows introduce `NaN`; no claim below depends on the
dtypes of merged output, so right dtypes are carried unchanged.) -/
def leftMerge (lt rt : Table) (key suffix : String) : Table :=
  let kept := keptIdxs rt key
  { cols := lt.cols ++ kept.map (fun i => renameRight lt.cols suffix (rt.cols.getD i ""))
    dtypes := lt.dtypes ++ kept.map (fun i => rt.dtypes.getD i Dtype.otherT)
    rows := mergeRows lt.cols rt key kept lt.rows }

/-- One guarded merge step of `merge_datasets`: a secondary table that is
`None` or lacks the resolved key is skipped silently; otherwise it is
left-joined onto the accumulated result. -/
def mergeStep (acc : Table) (sec : Option Table) (key suffix : String) : Table :=
  match sec with
  | none => acc
  | some s => if s.cols.contains key then leftMerge acc s key suffix else acc

/-- Embeds `UDISEDataProcessor.merge_datasets` (`data_processing.py` lines 171-199):
copy the profile table, resolve the join key from the profile's columns,
return the profile unchanged if no alias matches, and otherwise left-join
the enrolment, facility and teacher tables in turn with per-source suffixes
`_enrol`, `_facility`, `_teacher`.  No row-count check, deduplication or
warning is performed around the joins. -/
def mergeDatasets (profile : Table) (enrolment facility teacher : Option Table) :
    Table :=
  match resolveKey profile with
  | none => profile
  | some key =>
      mergeStep (mergeStep (mergeStep profile enrolment key "_enrol")
        facility key "_facility") teacher key "_teacher"

/-- The key column of `t` as a value sequence (used to state key uniqueness). -/
def keyColumn (t : Table) (key : String) : List Cell :=
  columnValues t key

/-! ## Indicator Calculator (`EducationPolicyAnalyzer`, `analysis.py`)

Pandas reductions (`Series.sum`, `DataFrame.sum(axis=1)`, groupby-`sum`)
skip `NaN` (treated as 0 in a sum); the numeric value of a cell is its
rational for `num`, and 0 for `missing`.  A `str` cell also reads 0 here:
the analysis code only sums columns it treats as numeric. -/

/-- Numeric value of a cell as used by pandas sums (`NaN` contributes 0). -/
def cellNumQ : Cell → ℚ
  | Cell.num q => q
  | Cell.str _ => 0
  | Cell.missing => 0

/-- Pandas `df[c].sum()`: the sum of column `c` over all rows. -/
def colSum (t : Table) (c : String) : ℚ :=
  (t.rows.map (fun r => cellNumQ (t.cell r c))).sum

/-- One row's contribution to `df[cs].sum(axis=1)`: the row-wise sum over
the columns `cs`. -/
def rowSumOver (t : Table) (cs : List String) (r : List Cell) : ℚ :=
  (cs.map (fun c => cellNumQ (t.cell r c))).sum

/-- Distinct values in first-occurrence order (group keys of a pandas
groupby; pandas additionally sorts group keys, an ordering no claim below
depends on). -/
def dedupFirst (l : List Cell) : List Cell :=
  l.foldl (fun acc c => if c ∈ acc then acc else acc ++ [c]) []

/-- Number of rows of `t` whose `sc`-cell equals `v` (`groupby(sc).size()`). -/
def groupCount (t : Table) (sc : String) (v : Cell) : ℕ :=
  (t.rows.filter (fun r => t.cell r sc = v)).length

/-- Sum of column `col` over the rows of `t` whose `sc`-cell equals `v`
(one entry of `groupby(sc).agg(col: 'sum')`). -/
def groupSum (t : Table) (sc : String) (v : Cell) (col : String) : ℚ :=
  ((t.rows.filter (fun r => t.cell r sc = v)).map
    (fun r => cellNumQ (t.cell r col))).sum

/-- Pandas `groupby(sc).size()` as an association list keyed by group value. -/
def groupSizes (t : Table) (sc : String) : List (Cell × ℕ) :=
  (dedupFirst (columnValues t sc)).map (fun v => (v, groupCount t sc v))

/-- Distinct value pairs of two columns in first-occurrence order. -/
def dedupFirstPairs (l : List (Cell × Cell)) : List (Cell × Cell) :=
  l.foldl (fun acc c => if c ∈ acc then acc else acc ++ [c]) []

/-- Pandas `groupby([sc, dc]).size()` as an association list keyed by value pair. -/
def groupSizes2 (t : Table) (sc dc : String) : List ((Cell × Cell) × ℕ) :=
  (dedupFirstPairs (t.rows.map (fun r => (t.cell r sc, t.cell r dc)))).map
    (fun v => (v, (t.rows.filter
      (fun r => t.cell r sc = v.1 ∧ t.cell r dc = v.2)).length))

/-- The epsilon guard `1e-10` used in every ratio of `analysis.py`. -/
def eps : ℚ := 1 / 10 ^ 10

/-- Default gender-column selection of `calculate_enrolment_metrics`
(`analysis.py` lines 30-31): names containing `girl`, `female`, `boy` or
`male` case-insensitively.  Note `male` is a substring of `female`. -/
def genderCols (t : Table) : List String :=
  t.cols.filter (fun c =>
    lowerHas c "girl" || lowerHas c "female" || lowerHas c "boy" || lowerHas c "male")

/-- Selection `girls_col` (`analysis.py` line 34): gender columns containing `girl`
or `female`. -/
def girlsCols (t : Table) : List String :=
  (genderCols t).filter (fun c => lowerHas c "girl" || lowerHas c "female")

/-- Selection `boys_col` (`analysis.py` line 35): gender columns containing `boy` or
`male` — which a name containing `female` also does. -/
def boysCols (t : Table) : List String :=
  (genderCols t).filter (fun c => lowerHas c "boy" || lowerHas c "male")

/-- A pandas value that is either a scalar or a per-row Series, the two
shapes `girls_total`, `boys_total` and the parity index can take
(`analysis.py` lines 38-41). -/
inductive GpiValue where
  | scalar (q : ℚ)
  | perRow (l : List ℚ)
deriving DecidableEq

/-- Pandas `df[cs[0]].sum() if len(cs) == 1 else df[cs].sum(axis=1)`: a scalar
total for a single column, a per-row Series for several. -/
def genderTotal (t : Table) (cs : List String) : GpiValue :=
  match cs with
  | [c] => GpiValue.scalar (colSum t c)
  | _ => GpiValue.perRow (t.rows.map (rowSumOver t cs))

/-- Ratio `girls_total / (boys_total + 1e-10)` under pandas broadcasting: a
Series on either side makes the result a Series (elementwise on both). -/
def gpiDiv : GpiValue → GpiValue → GpiValue
  | GpiValue.scalar a, GpiValue.scalar b => GpiValue.scalar (a / (b + eps))
  | GpiValue.perRow l, GpiValue.scalar b => GpiValue.perRow (l.map (fun a => a / (b + eps)))
  | GpiValue.scalar a, GpiValue.perRow m => GpiValue.perRow (m.map (fun b => a / (b + eps)))
  | GpiValue.perRow l, GpiValue.perRow m =>
      GpiValue.perRow (List.zipWith (fun a b => a / (b + eps)) l m)

/-- The metrics dictionary built by `calculate_enrolment_metrics`; a `none`
field is an absent dictionary entry. -/
structure EnrolMetrics where
  gender_parity_index : Option GpiValue := none
  state_enrolment : Option (List (Cell × ℕ)) := none
  district_enrolment : Option (List ((Cell × Cell) × ℕ)) := none
deriving DecidableEq

/-- Embeds `EducationPolicyAnalyzer.calculate_enrolment_metrics` (`analysis.py`
lines 21-52) with its default `state_col='State'`, `district_col='District'`.
The gender-parity entry is set when at least two gender-keyword columns
exist and both the girls and the boys sublists are nonempty.  The district
branch calls `df.groupby([state_col, district_col])` without checking that
`state_col` is present, so a table with a district column but no state
column raises `KeyError` — embedded as the `Except.error` case. -/
def calculate_enrolment_metrics (t : Table)
    (state_col : String := "State") (district_col : String := "District") :
    Except String EnrolMetrics :=
  let m0 : EnrolMetrics := {}
  let m1 :=
    if 2 ≤ (genderCols t).length then
      match girlsCols t, boysCols t with
      | [], _ => m0
      | _, [] => m0
      | gs, bs =>
          let g := some (gpiDiv (genderTotal t gs) (genderTotal t bs))
          { m0 with gender_parity_index := g }
    else m0
  let m2 :=
    if t.cols.contains state_col then
      { m1 with state_enrolment := some (groupSizes t state_col) }
    else m1
  if t.cols.contains district_col then
    if t.cols.contains state_col then
      let d := some (groupSizes2 t state_col district_col)
      Except.ok { m2 with district_enrolment := d }
    else Except.error "KeyError: state column not in DataFrame"
  else Except.ok m2

/-- Teacher-column selection of `calculate_teacher_student_ratio`
(`analysis.py` line 61): names containing `teacher`. -/
def teacherCols (t : Table) : List String :=
  t.cols.filter (fun c => lowerHas c "teacher")

/-- Student-column selection (`analysis.py` lines 62-63): names containing
`student`, `enrolment` or `enrolled`. -/
def studentCols (t : Table) : List String :=
  t.cols.filter (fun c =>
    lowerHas c "student" || lowerHas c "enrolment" || lowerHas c "enrolled")

/-- The state alias list tried in order by the analysis code. -/
def stateAliases : List String := ["State", "state", "STATE", "State_Name"]

/-- First state alias present among the columns (`analysis.py` lines 69-73). -/
def stateCol (t : Table) : Option String :=
  stateAliases.find? (fun c => t.cols.contains c)

/-- One row of the `aggregated` frame returned by
`calculate_teacher_student_ratio`: state value, teacher sum, student sum,
and the `TSR` column. -/
structure TsrEntry where
  state : Cell
  teacherSum : ℚ
  studentSum : ℚ
  tsr : ℚ
deriving DecidableEq

/-- Embeds `EducationPolicyAnalyzer.calculate_teacher_student_ratio` (`analysis.py`
lines 54-84): `None` when no teacher column, no student column, or no state
alias resolves; otherwise the per-state sums of the first teacher column and
the first student column with `TSR = student_sum / (teacher_sum + 1e-10)`. -/
def calculate_teacher_student_ratio (t : Table) : Option (List TsrEntry) :=
  if (teacherCols t).isEmpty || (studentCols t).isEmpty then none
  else
    match stateCol t with
    | none => none
    | some sc =>
        let tc := (teacherCols t).headD ""
        let stc := (studentCols t).headD ""
        some ((dedupFirst (columnValues t sc)).map (fun v =>
          { state := v
            teacherSum := groupSum t sc v tc
            studentSum := groupSum t sc v stc
            tsr := groupSum t sc v stc / (groupSum t sc v tc + eps) }))

/-- Facility-column selection of `analyze_facility_availability`
(`analysis.py` lines 92-93): names containing any facility keyword. -/
def facilityCols (t : Table) : List String :=
  t.cols.filter (fun c =>
    lowerHas c "toilet" || lowerHas c "water" || lowerHas c "library" ||
    lowerHas c "computer" || lowerHas c "internet" || lowerHas c "electricity")

/-- Dtype of the column named `c` in `t`. -/
def dtypeOf (t : Table) (c : String) : Dtype :=
  match t.cols.findIdx? (· = c) with
  | some i => t.dtypes.getD i Dtype.otherT
  | none => Dtype.otherT

/-- Pandas `df[c].value_counts()` as an association list: distinct non-missing
values with their multiplicities (pandas excludes `NaN` and presents the
result sorted by count, an ordering no claim below depends on). -/
def valueCounts (t : Table) (c : String) : List (Cell × ℕ) :=
  (dedupFirst ((columnValues t c).filter (· ≠ Cell.missing))).map
    (fun v => (v, ((columnValues t c).filter (· = v)).length))

/-- Pandas `(df[c] > 0).sum()`: rows whose cell is a numeric value above zero
(`NaN > 0` is false in pandas). -/
def countPos (t : Table) (c : String) : ℕ :=
  (t.rows.filter (fun r =>
    match t.cell r c with
    | Cell.num q => 0 < q
    | _ => False)).length

/-- One entry of the facility-analysis dictionary: a frequency table for a
categorical column, or an availability count with percentage for a numeric
one. -/
inductive FacilityResult where
  | freq (l : List (Cell × ℕ))
  | numAvail (available : ℕ) (percentage : ℚ)
deriving DecidableEq

/-- Embeds `EducationPolicyAnalyzer.analyze_facility_availability` (`analysis.py`
lines 86-110) with its default column selection: object/string columns get
a `value_counts` frequency table; other columns get the count of positive
entries (0 unless the dtype is int64/float64) as a count and a percentage
of all rows, with the percentage literally 0 for an empty table. -/
def analyze_facility_availability (t : Table) : List (String × FacilityResult) :=
  (facilityCols t).map (fun c =>
    if dtypeOf t c = Dtype.obj then (c, FacilityResult.freq (valueCounts t c))
    else
      let total := t.rows.length
      let available :=
        if dtypeOf t c = Dtype.int64 ∨ dtypeOf t c = Dtype.float64 then
          countPos t c
        else 0
      (c, FacilityResult.numAvail available
        (if 0 < total then (available : ℚ) / total * 100 else 0)))

/-- Rural-column selection of `calculate_equity_indicators`
(`analysis.py` line 181). -/
def ruralCols (t : Table) : List String :=
  t.cols.filter (fun c => lowerHas c "rural")

/-- Urban-column selection of `calculate_equity_indicators`
(`analysis.py` line 182). -/
def urbanCols (t : Table) : List String :=
  t.cols.filter (fun c => lowerHas c "urban")

/-- Pandas `df[cs[0]].sum() if len(cs) == 1 else df[cs].sum(axis=1).sum()`: both
shapes reduce to a scalar here. -/
def equityTotal (t : Table) (cs : List String) : ℚ :=
  match cs with
  | [c] => colSum t c
  | _ => (t.rows.map (rowSumOver t cs)).sum

/-- Embeds `EducationPolicyAnalyzer.calculate_equity_indicators` (`analysis.py`
lines 174-190): the rural/urban ratio when both column families exist,
otherwise an empty metrics dictionary (`none` entry). -/
def calculate_equity_indicators (t : Table) : Option ℚ :=
  if (ruralCols t).isEmpty || (urbanCols t).isEmpty then none
  else some (equityTotal t (ruralCols t) / (equityTotal t (urbanCols t) + eps))

/-! ## Regional Clustering Module (`perform_clustering_analysis`)

The source (`analysis.py` lines 147-172) selects up to 20 numeric columns,
fills missing cells with 0, standardizes with `StandardScaler`, and runs
`KMeans(n_clusters, random_state=42).fit_predict`.  `StandardScaler` and
`KMeans` are library code outside this repository; per the spec's §4.5
description ("standardizes each feature to zero mean/unit variance; runs
iterative centroid-based clustering with a fixed random seed") they are
embedded as a standardize-then-Lloyd pipeline whose only randomness source
is the constant seed 42: a seeded linear-congruential index choice stands
in for the seeded k-means++ initialization and a fixed-fuel rational Newton
iteration for the floating-point square root.  Every step is a pure
function of the table, the feature selection, `k` and the fixed seed, which
is exactly what the determinism claim rests on. -/

/-- Default feature selection: the first 20 numeric columns
(`analysis.py` lines 153-155). -/
def numericCols (t : Table) : List String :=
  (((t.cols.zip t.dtypes).filter
    (fun p => p.2 = Dtype.int64 ∨ p.2 = Dtype.float64)).map Prod.fst).take 20

/-- Pandas `df[features].fillna(0)` as a rational matrix, one row per table row. -/
def featureMatrix (t : Table) (feats : List String) : List (List ℚ) :=
  t.rows.map (fun r => feats.map (fun c => cellNumQ (t.cell r c)))

/-- Mean of a rational list (0 for the empty list). -/
def meanQ (l : List ℚ) : ℚ :=
  if l.length = 0 then 0 else l.sum / l.length

/-- Column `j` of a row-major rational matrix. -/
def matCol (X : List (List ℚ)) (j : ℕ) : List ℚ :=
  X.map (fun r => r.getD j 0)

/-- Population variance of a rational list (`StandardScaler` uses `ddof=0`). -/
def varQ (l : List ℚ) : ℚ :=
  meanQ (l.map (fun x => (x - meanQ l) ^ 2))

/-- Fixed-fuel Newton iteration for a rational square-root approximation. -/
def sqrtIter : ℕ → ℚ → ℚ → ℚ
  | 0, _, g => g
  | n + 1, x, g => sqrtIter n x ((g + x / g) / 2)

/-- Deterministic rational stand-in for the floating-point square root. -/
def ratSqrt (x : ℚ) : ℚ :=
  if x ≤ 0 then 0 else sqrtIter 30 x (x + 1)

/-- Embeds `StandardScaler.fit_transform`: per column, subtract the mean and divide
by the standard deviation, a zero-variance column being scaled by 1 as the
scaler does. -/
def standardizeMatrix (X : List (List ℚ)) (nf : ℕ) : List (List ℚ) :=
  let mus := (List.range nf).map (fun j => meanQ (matCol X j))
  let scales := (List.range nf).map (fun j =>
    let v := varQ (matCol X j)
    if v = 0 then 1 else ratSqrt v)
  X.map (fun r => (List.range nf).map (fun j =>
    (r.getD j 0 - mus.getD j 0) / scales.getD j 1))

/-- A linear-congruential pseudo-random step. -/
def lcg (s : ℕ) : ℕ :=
  (1103515245 * s + 12345) % 2 ^ 31

/-- The `i`-th value drawn from the generator seeded with `seed`. -/
def seedStream (seed : ℕ) : ℕ → ℕ
  | 0 => lcg seed
  | n + 1 => lcg (seedStream seed n)

/-- Seed-determined initial centroids: `k` rows of `X` picked by the
seeded generator. -/
def initCentroids (seed k : ℕ) (X : List (List ℚ)) : List (List ℚ) :=
  (List.range k).map (fun i => X.getD (seedStream seed i % X.length) [])

/-- Squared Euclidean distance of two feature vectors. -/
def sqDist (a b : List ℚ) : ℚ :=
  (List.zipWith (fun x y => (x - y) ^ 2) a b).sum

/-- Index of the nearest centroid (ties broken towards the lowest index). -/
def nearestIdx (cs : List (List ℚ)) (x : List ℚ) : ℕ :=
  let ds := cs.map (sqDist x)
  let best := ds.foldl min (ds.headD 0)
  (ds.findIdx? (fun d => d = best)).getD 0

/-- One Lloyd update: each centroid becomes the mean of its assigned rows
(an empty cluster keeps its centroid). -/
def lloydStep (nf : ℕ) (X : List (List ℚ)) (cs : List (List ℚ)) :
    List (List ℚ) :=
  (List.range cs.length).map (fun c =>
    let members := X.filter (fun x => nearestIdx cs x = c)
    if members.isEmpty then cs.getD c []
    else (List.range nf).map (fun j => meanQ (matCol members j)))

/-- Fixed-fuel Lloyd iteration (KMeans runs a bounded number of updates). -/
def lloydIter (nf : ℕ) (X : List (List ℚ)) : ℕ → List (List ℚ) → List (List ℚ)
  | 0, cs => cs
  | n + 1, cs => lloydIter nf X n (lloydStep nf X cs)

/-- The dictionary returned by `perform_clustering_analysis`: per-row
labels, centroid matrix, and total within-cluster distortion (`inertia`). -/
structure ClusterResult where
  clusters : List ℕ
  cluster_centers : List (List ℚ)
  inertia : ℚ
deriving DecidableEq

/-- Embeds `KMeans(n_clusters=k, random_state=seed).fit_predict` on matrix `X`:
seeded initialization, bounded Lloyd iteration, final assignment, and the
distortion of that assignment. -/
def kmeansSeeded (seed k maxIter nf : ℕ) (X : List (List ℚ)) : ClusterResult :=
  let cs := lloydIter nf X maxIter (initCentroids seed k X)
  { clusters := X.map (nearestIdx cs)
    cluster_centers := cs
    inertia := (X.map (fun x => sqDist x (cs.getD (nearestIdx cs x) []))).sum }

/-- Embeds `EducationPolicyAnalyzer.perform_clustering_analysis` (`analysis.py`
lines 147-172): default features are the first 20 numeric columns, missing
cells are imputed with 0, the matrix is standardized, and KMeans runs with
the hard-coded `random_state=42`. -/
def perform_clustering_analysis (t : Table) (n_clusters : ℕ := 5)
    (features : Option (List String) := none) : ClusterResult :=
  let feats := features.getD (numericCols t)
  let X := standardizeMatrix (featureMatrix t feats) feats.length
  kmeansSeeded 42 n_clusters 300 feats.length X

/-! ## Local environment of `merge_datasets` (frame claim)

`merge_datasets` reads its four argument frames and rebinds only the local
`merged_df`: `profile_df.copy()` and every `DataFrame.merge` call allocate
a fresh frame and leave their operands untouched, and no statement of the
function assigns to or mutates `profile_df`, `enrolment_df`, `facility_df`
or `teacher_df`.  The environment below records all five variables so that
this can be stated as a frame property of the call. -/

structure MergeEnv where
  profile_df : Table
  enrolment_df : Option Table
  facility_df : Option Table
  teacher_df : Option Table
  merged_df : Table
deriving DecidableEq

/-- Running `merge_datasets` over an environment: the result lands in
`merged_df`; the four input frames are only read. -/
def merge_datasets_run (e : MergeEnv) : MergeEnv :=
  let merged :=
    mergeDatasets e.profile_df e.enrolment_df e.facility_df e.teacher_df
  { e with merged_df := merged }

/-! ## Helper lemmas -/

/-- At most one element of `l` maps to `v` under `f` when the images of `l`
are pairwise distinct. -/
theorem filter_image_eq_length_le_one {α β : Type} [DecidableEq β]
    (f : α → β) (v : β) :
    ∀ l : List α, (l.map f).Nodup →
      (l.filter (fun m => f m = v)).length ≤ 1 := by
  intro l
  induction l with
  | nil => intro _; simp
  | cons a rest ih =>
      intro h
      rw [List.map_cons, List.nodup_cons] at h
      by_cases hv : f a = v
      · rw [List.filter_cons_of_pos (by simpa using hv)]
        have hnil : rest.filter (fun m => f m = v) = [] := by
          rw [List.filter_eq_nil_iff]
          intro b hb
          simp only [decide_eq_true_eq]
          intro hfb
          exact h.1 (hv ▸ hfb ▸ List.mem_map_of_mem f hb)
        simp [hnil]
      · rw [List.filter_cons_of_neg (by simpa using hv)]
        exact ih h.2

/-- Key uniqueness bounds the number of matching rows by one. -/
theorem matchingRows_length_le_one (rt : Table) (key : String)
    (h : (keyColumn rt key).Nodup) (v : Cell) :
    (matchingRows rt key v).length ≤ 1 :=
  filter_image_eq_length_le_one (fun m => rt.cell m key) v rt.rows h

/-- When every key value matches at most one right row, the joined row
block has exactly the left rows' length. -/
theorem mergeRows_length (lcols : List String) (rt : Table) (key : String)
    (kept : List ℕ)
    (h : ∀ v, (matchingRows rt key v).length ≤ 1) :
    ∀ rows : List (List Cell),
      (mergeRows lcols rt key kept rows).length = rows.length := by
  intro rows
  induction rows with
  | nil => rfl
  | cons r rest ih =>
      rw [mergeRows, List.length_append, ih]
      have hone :
          (match matchingRows rt key (getCellAt lcols r key) with
           | [] => [r ++ kept.map (fun _ => Cell.missing)]
           | ms => ms.map (fun (m : List Cell) =>
               r ++ kept.map (fun i => m.getD i Cell.missing))).length = 1 := by
        cases hm : matchingRows rt key (getCellAt lcols r key) with
        | nil => rfl
        | cons m ms =>
            have hlen := h (getCellAt lcols r key)
            rw [hm] at hlen
            simp only [List.length_cons] at hlen
            have hms : ms = [] := by
              cases ms with
              | nil => rfl
              | cons _ _ => simp at hlen
            subst hms
            rfl
      rw [hone, Nat.add_comm]
      rfl

/-- A skipped or uniquely-keyed secondary table leaves the accumulated row
count unchanged through one merge step. -/
theorem mergeStep_rows_length (acc : Table) (sec : Option Table)
    (key suffix : String)
    (h : ∀ s, sec = some s → s.cols.contains key = true →
      (keyColumn s key).Nodup) :
    (mergeStep acc sec key suffix).rows.length = acc.rows.length := by
  cases sec with
  | none => rfl
  | some s =>
      rw [mergeStep]
      by_cases hc : s.cols.contains key = true
      · rw [if_pos hc]
        exact mergeRows_length acc.cols s key (keptIdxs s key)
          (matchingRows_length_le_one s key (h s rfl hc)) acc.rows
      · rw [if_neg hc]

/-! ## Claims -/

/-- C1.  For every primary table and every list of secondary tables in
which each present secondary table has unique values in the resolved key
column, the fused table returned by `merge_datasets` has exactly as many
rows as the primary table; and secondary tables that are absent are skipped
and change nothing (in particular, merging with no secondaries returns the
primary table itself). -/
theorem merge_preserves_primary_rowcount (profile : Table)
    (enrolment facility teacher : Option Table)
    (hE : ∀ key s, resolveKey profile = some key → enrolment = some s →
      s.cols.contains key = true → (keyColumn s key).Nodup)
    (hF : ∀ key s, resolveKey profile = some key → facility = some s →
      s.cols.contains key = true → (keyColumn s key).Nodup)
    (hT : ∀ key s, resolveKey profile = some key → teacher = some s →
      s.cols.contains key = true → (keyColumn s key).Nodup) :
    (mergeDatasets profile enrolment facility teacher).rows.length =
      profile.rows.length ∧
    mergeDatasets profile none none none = profile := by
  constructor
  · rw [mergeDatasets]
    cases hk : resolveKey profile with
    | none => rfl
    | some key =>
        rw [mergeStep_rows_length _ teacher key _
              (fun s hs hc => hT key s hk hs hc),
            mergeStep_rows_length _ facility key _
              (fun s hs hc => hF key s hk hs hc),
            mergeStep_rows_length _ enrolment key _
              (fun s hs hc => hE key s hk hs hc)]
  · rw [mergeDatasets]
    cases resolveKey profile <;> rfl

/-- Primary table of the C1 witness: three schools with distinct codes. -/
def c1profile : Table :=
  ⟨["School_Code", "Name"], [Dtype.int64, Dtype.obj],
   [[Cell.num 1, Cell.str "A"], [Cell.num 2, Cell.str "B"],
    [Cell.num 3, Cell.str "C"]]⟩

/-- Secondary table of the C1 witness: unique keys, one school unmatched. -/
def c1enrol : Table :=
  ⟨["School_Code", "Teacher_Count"], [Dtype.int64, Dtype.int64],
   [[Cell.num 1, Cell.num 5], [Cell.num 2, Cell.num 10]]⟩

/-- Witness for C1: fusing a 3-row primary with a uniquely-keyed 2-row
secondary yields exactly 3 rows. -/
theorem merge_preserves_primary_rowcount_witness :
    (mergeDatasets c1profile (some c1enrol) none none).rows.length =
      c1profile.rows.length := by
  have h := merge_preserves_primary_rowcount c1profile (some c1enrol) none none
    ?hE ?hF ?hT
  · exact h.1
  case hE =>
    intro key s hk hs _
    rw [show resolveKey c1profile = some "School_Code" from rfl] at hk
    injection hk with hkey
    injection hs with hsec
    subst hkey
    subst hsec
    decide
  case hF =>
    intro key s _ hs _
    simp at hs
  case hT =>
    intro key s _ hs _
    simp at hs

/-- C2.  The join key resolved by `merge_datasets` is the first alias of
the fixed order pseudocode, School_Code, DISE_Code, UDISE_Code,
school_code, dise_code, udise_code, udisecode occurring among the primary
table's columns; when none occurs the merge returns the primary table
unmodified (and, being a total function, does not raise). -/
theorem resolveKey_priority_and_identity_merge (p : Table) :
    resolveKey p =
      (if p.cols.contains "pseudocode" then some "pseudocode"
       else if p.cols.contains "School_Code" then some "School_Code"
       else if p.cols.contains "DISE_Code" then some "DISE_Code"
       else if p.cols.contains "UDISE_Code" then some "UDISE_Code"
       else if p.cols.contains "school_code" then some "school_code"
       else if p.cols.contains "dise_code" then some "dise_code"
       else if p.cols.contains "udise_code" then some "udise_code"
       else if p.cols.contains "udisecode" then some "udisecode"
       else none) ∧
    ((∀ k ∈ possibleKeys, ¬ p.cols.contains k = true) →
      ∀ e f t, mergeDatasets p e f t = p) := by
  constructor
  · rw [resolveKey, possibleKeys]
    simp only [List.find?]
    rcases h1 : p.cols.contains "pseudocode" <;>
      rcases h2 : p.cols.contains "School_Code" <;>
      rcases h3 : p.cols.contains "DISE_Code" <;>
      rcases h4 : p.cols.contains "UDISE_Code" <;>
      rcases h5 : p.cols.contains "school_code" <;>
      rcases h6 : p.cols.contains "dise_code" <;>
      rcases h7 : p.cols.contains "udise_code" <;>
      rcases h8 : p.cols.contains "udisecode" <;>
      simp [h1, h2, h3, h4, h5, h6, h7, h8]
  · intro h e f t
    have hnone : resolveKey p = none := by
      rw [resolveKey]
      rw [List.find?_eq_none]
      intro k hk
      simpa using h k hk
    rw [mergeDatasets, hnone]

/-- A table none of whose columns is a join-key alias. -/
def c2profile : Table :=
  ⟨["Name", "Address"], [Dtype.obj, Dtype.obj],
   [[Cell.str "A", Cell.str "x"], [Cell.str "B", Cell.str "y"]]⟩

/-- Witness for C2: with no alias present, `merge_datasets` returns the
primary table unmodified even when a secondary table is supplied. -/
theorem resolveKey_priority_and_identity_merge_witness :
    mergeDatasets c2profile (some c1enrol) none none = c2profile :=
  (resolveKey_priority_and_identity_merge c2profile).2 (by decide)
    (some c1enrol) none none

/-- Primary table of the C3 failing input: one school. -/
def c3profile : Table :=
  ⟨["School_Code"], [Dtype.int64], [[Cell.num 1]]⟩

/-- Secondary table of the C3 failing input: the key value 1 is duplicated. -/
def c3enrol : Table :=
  ⟨["School_Code", "Enrol"], [Dtype.int64, Dtype.int64],
   [[Cell.num 1, Cell.num 5], [Cell.num 1, Cell.num 7]]⟩

/-- C3 (failing input).  `merge_datasets` compares no row counts, emits no
warning and deduplicates nothing: joining a 1-row primary with a secondary
whose key column holds the duplicate values [1, 1] silently yields a 2-row
fused table. -/
theorem duplicate_keys_silently_inflate_rows :
    c3profile.rows.length = 1 ∧
    (mergeDatasets c3profile (some c3enrol) none none).rows.length = 2 := by
  constructor
  · rfl
  · rfl

/-- A table with two girls-keyword columns and one boys-keyword column. -/
def c4tbl : Table :=
  ⟨["Girls_Primary", "Girls_Upper", "Boys_Total"],
   [Dtype.int64, Dtype.int64, Dtype.int64],
   [[Cell.num 1, Cell.num 3, Cell.num 5],
    [Cell.num 2, Cell.num 4, Cell.num 5]]⟩

/-- C4 (counterexample).  On a table with several girls columns the code
does not return the claimed global ratio of column sums: `sum(axis=1)`
makes `girls_total` a per-row Series, so `gender_parity_index` is the
per-row list `[4/(10+ε), 6/(10+ε)]`, not the scalar
`(1+2+3+4) / ((5+5) + 1e-10)` the claim prescribes. -/
theorem gpi_not_global_sum_ratio_on_multi_columns :
    (calculate_enrolment_metrics c4tbl).toOption.bind
        (fun m => m.gender_parity_index) =
      some (GpiValue.perRow [4 / (10 + eps), 6 / (10 + eps)]) ∧
    (calculate_enrolment_metrics c4tbl).toOption.bind
        (fun m => m.gender_parity_index) ≠
      some (GpiValue.scalar
        ((colSum c4tbl "Girls_Primary" + colSum c4tbl "Girls_Upper") /
          (colSum c4tbl "Boys_Total" + eps))) := by
  have hg : girlsCols c4tbl = ["Girls_Primary", "Girls_Upper"] := by decide
  have hb : boysCols c4tbl = ["Boys_Total"] := by decide
  have hlen : 2 ≤ (genderCols c4tbl).length := by decide
  have hd : ¬ ("District" ∈ c4tbl.cols) := by decide
  have hst : ¬ ("State" ∈ c4tbl.cols) := by decide
  have hmain : (calculate_enrolment_metrics c4tbl).toOption.bind
      (fun m => m.gender_parity_index) =
      some (GpiValue.perRow [4 / (10 + eps), 6 / (10 + eps)]) := by
    rw [calculate_enrolment_metrics]
    simp only [hg, hb, if_pos hlen]
    simp [hd, hst, genderTotal, gpiDiv, Except.toOption, colSum, rowSumOver,
      Table.cell, getCellAt, cellNumQ, c4tbl]
    norm_num
  refine ⟨hmain, ?_⟩
  intro hcontra
  rw [hmain] at hcontra
  exact GpiValue.noConfusion (Option.some.inj hcontra)

/-- C4 (amended).  When the girls selection and the boys selection each
resolve to exactly one column (and at least two gender-keyword columns
exist, with no district-without-state column raising), the parity index is
the scalar `sum(girls) / (sum(boys) + 1e-10)`; it is computed globally
only, never per state. -/
theorem gpi_single_columns (t : Table) (g b : String)
    (hg : girlsCols t = [g]) (hb : boysCols t = [b])
    (hlen : 2 ≤ (genderCols t).length)
    (hok : "District" ∈ t.cols → "State" ∈ t.cols) :
    (calculate_enrolment_metrics t).toOption.bind
        (fun m => m.gender_parity_index) =
      some (GpiValue.scalar (colSum t g / (colSum t b + eps))) := by
  rw [calculate_enrolment_metrics]
  simp only [hg, hb, if_pos hlen]
  by_cases hd : "District" ∈ t.cols
  · have hs := hok hd
    simp [hd, hs, genderTotal, gpiDiv, Except.toOption]
  · by_cases hs : "State" ∈ t.cols <;>
      simp [hd, hs, genderTotal, gpiDiv, Except.toOption]

/-- The spec's worked example: Girls_Enrolled = [10, 20],
Boys_Enrolled = [10, 20]. -/
def c4example : Table :=
  ⟨["Girls_Enrolled", "Boys_Enrolled"], [Dtype.int64, Dtype.int64],
   [[Cell.num 10, Cell.num 10], [Cell.num 20, Cell.num 20]]⟩

/-- Witness for the amended C4: on the spec's example the index is the
scalar `30 / (30 + 1e-10)`, which lies within `1e-10` of 1. -/
theorem gpi_single_columns_witness :
    (calculate_enrolment_metrics c4example).toOption.bind
        (fun m => m.gender_parity_index) =
      some (GpiValue.scalar (30 / (30 + eps))) ∧
    |30 / (30 + eps) - 1| ≤ eps := by
  constructor
  · have h := gpi_single_columns c4example "Girls_Enrolled" "Boys_Enrolled"
      (by decide) (by decide) (by decide) (by decide)
    rw [h]
    norm_num [colSum, c4example, Table.cell, getCellAt, cellNumQ]
  · rw [eps, abs_le]
    constructor <;> norm_num

/-- Everything put into the fold of `dedupFirst` ends up in its result. -/
theorem mem_foldl_dedup (l : List Cell) : ∀ (acc : List Cell) (x : Cell),
    x ∈ acc ∨ x ∈ l →
    x ∈ l.foldl (fun acc c => if c ∈ acc then acc else acc ++ [c]) acc := by
  induction l with
  | nil =>
      intro acc x hx
      rcases hx with h | h
      · simpa using h
      · simp at h
  | cons c rest ih =>
      intro acc x hx
      rw [List.foldl_cons]
      by_cases hc : c ∈ acc
      · rw [if_pos hc]
        apply ih
        rcases hx with h | h
        · exact Or.inl h
        · rcases List.mem_cons.mp h with rfl | h
          · exact Or.inl hc
          · exact Or.inr h
      · rw [if_neg hc]
        apply ih
        rcases hx with h | h
        · exact Or.inl (List.mem_append_left _ h)
        · rcases List.mem_cons.mp h with rfl | h
          · exact Or.inl (List.mem_append_right _ (by simp))
          · exact Or.inr h

/-- Group keys cover every value occurring in the grouped column. -/
theorem mem_dedupFirst {l : List Cell} {x : Cell} (h : x ∈ l) :
    x ∈ dedupFirst l :=
  mem_foldl_dedup l [] x (Or.inr h)

/-- C5.  `calculate_teacher_student_ratio` groups by the first state alias
present among State, state, STATE, State_Name and returns, per state value,
`TSR = student_sum / (teacher_sum + 1e-10)` over the first teacher-keyword
and first student-keyword columns; when teacher and student columns exist
but no state alias does, it returns the unavailable marker `none`. -/
theorem tsr_per_state_or_unavailable (t : Table) :
    (∀ sc, stateCol t = some sc → teacherCols t ≠ [] → studentCols t ≠ [] →
      ∃ l, calculate_teacher_student_ratio t = some l ∧
        (∀ e ∈ l, e.tsr = e.studentSum / (e.teacherSum + eps) ∧
          e.teacherSum = groupSum t sc e.state ((teacherCols t).headD "") ∧
          e.studentSum = groupSum t sc e.state ((studentCols t).headD "")) ∧
        (∀ v ∈ columnValues t sc, ∃ e ∈ l, e.state = v)) ∧
    (teacherCols t ≠ [] → studentCols t ≠ [] → stateCol t = none →
      calculate_teacher_student_ratio t = none) := by
  constructor
  · intro sc hsc ht hs
    rw [calculate_teacher_student_ratio]
    have hti : (teacherCols t).isEmpty = false := by
      cases h : teacherCols t with
      | nil => exact absurd h ht
      | cons _ _ => rfl
    have hsi : (studentCols t).isEmpty = false := by
      cases h : studentCols t with
      | nil => exact absurd h hs
      | cons _ _ => rfl
    rw [hti, hsi]
    simp only [Bool.or_self, Bool.false_eq_true, if_false, hsc]
    refine ⟨_, rfl, ?_, ?_⟩
    · intro e he
      obtain ⟨v, _, rfl⟩ := List.mem_map.mp he
      exact ⟨rfl, rfl, rfl⟩
    · intro v hv
      exact ⟨_, List.mem_map_of_mem _ (mem_dedupFirst hv), rfl⟩
  · intro _ _ hsc
    rw [calculate_teacher_student_ratio]
    by_cases hcond : ((teacherCols t).isEmpty || (studentCols t).isEmpty) = true
    · rw [if_pos hcond]
    · rw [if_neg hcond, hsc]

/-- A table with teacher, student and state columns. -/
def c5state : Table :=
  ⟨["State", "Num_Teachers", "Students_Total"],
   [Dtype.obj, Dtype.int64, Dtype.int64],
   [[Cell.str "KA", Cell.num 2, Cell.num 30],
    [Cell.str "KA", Cell.num 3, Cell.num 20],
    [Cell.str "TN", Cell.num 4, Cell.num 40]]⟩

/-- A table with teacher and student columns but no state alias. -/
def c5nostate : Table :=
  ⟨["Num_Teachers", "Students_Total"], [Dtype.int64, Dtype.int64],
   [[Cell.num 2, Cell.num 30]]⟩

/-- Witness for C5: the state-less table yields `none`, and the state-keyed
table yields a per-state list whose every ratio has the
`student / (teacher + 1e-10)` form. -/
theorem tsr_per_state_or_unavailable_witness :
    calculate_teacher_student_ratio c5nostate = none ∧
    ∃ l, calculate_teacher_student_ratio c5state = some l ∧
      ∀ e ∈ l, e.tsr = e.studentSum / (e.teacherSum + eps) := by
  constructor
  · exact (tsr_per_state_or_unavailable c5nostate).2 (by decide) (by decide)
      (by decide)
  · obtain ⟨l, hl, hprop, _⟩ :=
      (tsr_per_state_or_unavailable c5state).1 "State" (by decide) (by decide)
        (by decide)
    exact ⟨l, hl, fun e he => (hprop e he).1⟩

/-- C6.  Every facility-keyword column is reported: categorically (a
frequency table) when its dtype is object, and as a positive-entry count
with percentage when numeric; any reported percentage lies in [0, 100] and
is exactly 0 for a table with zero rows. -/
theorem facility_entries_and_percentage_bounds (t : Table) (c : String)
    (hc : c ∈ facilityCols t) :
    (dtypeOf t c = Dtype.obj →
      (c, FacilityResult.freq (valueCounts t c)) ∈
        analyze_facility_availability t) ∧
    ((dtypeOf t c = Dtype.int64 ∨ dtypeOf t c = Dtype.float64) →
      (c, FacilityResult.numAvail (countPos t c)
          (if 0 < t.rows.length then
            (countPos t c : ℚ) / t.rows.length * 100 else 0)) ∈
        analyze_facility_availability t) ∧
    (∀ a p, (c, FacilityResult.numAvail a p) ∈ analyze_facility_availability t →
      0 ≤ p ∧ p ≤ 100 ∧ (t.rows.length = 0 → p = 0)) := by
  refine ⟨?_, ?_, ?_⟩
  · intro h
    exact List.mem_map.mpr ⟨c, hc, by rw [if_pos h]⟩
  · intro h
    have hobj : ¬ dtypeOf t c = Dtype.obj := by
      rcases h with h | h <;> rw [h] <;> exact fun hy => Dtype.noConfusion hy
    refine List.mem_map.mpr ⟨c, hc, ?_⟩
    rw [if_neg hobj, if_pos h]
  · intro a p hmem
    obtain ⟨c', hc', heq⟩ := List.mem_map.mp hmem
    by_cases hobj : dtypeOf t c' = Dtype.obj
    · rw [if_pos hobj] at heq
      injection heq with _ hsnd
      exact FacilityResult.noConfusion hsnd
    · rw [if_neg hobj] at heq
      injection heq with hfst hsnd
      injection hsnd with ha hp
      subst hp
      have havail : (if dtypeOf t c' = Dtype.int64 ∨ dtypeOf t c' = Dtype.float64
          then countPos t c' else 0) ≤ t.rows.length := by
        by_cases hdt : dtypeOf t c' = Dtype.int64 ∨ dtypeOf t c' = Dtype.float64
        · rw [if_pos hdt]
          exact List.length_filter_le _ _
        · rw [if_neg hdt]
          exact Nat.zero_le _
      by_cases hn : 0 < t.rows.length
      · rw [if_pos hn]
        refine ⟨by positivity, ?_, fun h0 => absurd h0 (Nat.pos_iff_ne_zero.mp hn)⟩
        have hq : ((if dtypeOf t c' = Dtype.int64 ∨ dtypeOf t c' = Dtype.float64
            then countPos t c' else 0 : ℕ) : ℚ) / t.rows.length ≤ 1 := by
          rw [div_le_one (by exact_mod_cast hn)]
          exact_mod_cast havail
        calc ((if dtypeOf t c' = Dtype.int64 ∨ dtypeOf t c' = Dtype.float64
                then countPos t c' else 0 : ℕ) : ℚ) / t.rows.length * 100
            ≤ 1 * 100 := by
              exact mul_le_mul_of_nonneg_right hq (by norm_num)
          _ = 100 := one_mul 100
      · rw [if_neg hn]
        exact ⟨le_refl 0, by norm_num, fun _ => rfl⟩

/-- The spec's facility example: a numeric column [0, 0, 5, 3]. -/
def c6tbl : Table :=
  ⟨["Has_Water"], [Dtype.int64],
   [[Cell.num 0], [Cell.num 0], [Cell.num 5], [Cell.num 3]]⟩

/-- Witness for C6: on [0, 0, 5, 3] the numeric facility column reports
available = 2 with percentage 50. -/
theorem facility_entries_and_percentage_bounds_witness :
    ("Has_Water", FacilityResult.numAvail (countPos c6tbl "Has_Water")
        (if 0 < c6tbl.rows.length then
          (countPos c6tbl "Has_Water" : ℚ) / c6tbl.rows.length * 100 else 0)) ∈
      analyze_facility_availability c6tbl ∧
    countPos c6tbl "Has_Water" = 2 ∧
    (if 0 < c6tbl.rows.length then
      (countPos c6tbl "Has_Water" : ℚ) / c6tbl.rows.length * 100 else 0) = 50 := by
  refine ⟨(facility_entries_and_percentage_bounds c6tbl "Has_Water"
    (by decide)).2.1 (Or.inl rfl), by decide, ?_⟩
  rw [show countPos c6tbl "Has_Water" = 2 from by decide,
    show c6tbl.rows.length = 4 from rfl]
  norm_num

/-- The C7 failing input: a district column with no state column. -/
def c7tbl : Table :=
  ⟨["District"], [Dtype.obj], [[Cell.str "D1"]]⟩

/-- C7 (failing input).  `calculate_enrolment_metrics` reaches
`df.groupby([state_col, district_col])` guarded only by the presence of the
district column, so a table carrying `District` but no `State` raises
`KeyError` instead of returning an explicit not-computable result. -/
theorem enrolment_metrics_raises_on_district_without_state :
    calculate_enrolment_metrics c7tbl =
      Except.error "KeyError: state column not in DataFrame" := by
  rfl

/-- A column name matching both a facility keyword and a gender keyword. -/
def c9tbl : Table :=
  ⟨["Water_Girls"], [Dtype.int64], [[Cell.num 1]]⟩

/-- C9 (counterexample).  There is no cross-role precedence: the column
`Water_Girls` is selected both as a girls column by the enrolment-metrics
code and as a facility column by the facility-analysis code (which indeed
reports on it), so one column is classified under two different roles. -/
theorem water_girls_classified_under_two_roles :
    "Water_Girls" ∈ girlsCols c9tbl ∧
    "Water_Girls" ∈ facilityCols c9tbl ∧
    (analyze_facility_availability c9tbl).map Prod.fst = ["Water_Girls"] := by
  refine ⟨by decide, by decide, rfl⟩

/-- C9 (amended).  Column-role selection is independent per operation: a
name is a facility column exactly when it carries a facility keyword, and a
girls (boys) column exactly when it carries a girl/female (boy/male)
keyword, with no exclusion by any other role's match. -/
theorem role_selection_independent (t : Table) (c : String) :
    (c ∈ facilityCols t ↔ c ∈ t.cols ∧
      (lowerHas c "toilet" || lowerHas c "water" || lowerHas c "library" ||
       lowerHas c "computer" || lowerHas c "internet" ||
       lowerHas c "electricity") = true) ∧
    (c ∈ girlsCols t ↔ c ∈ t.cols ∧
      (lowerHas c "girl" || lowerHas c "female") = true) ∧
    (c ∈ boysCols t ↔ c ∈ t.cols ∧
      (lowerHas c "boy" || lowerHas c "male") = true) := by
  refine ⟨?_, ?_, ?_⟩
  · rw [facilityCols, List.mem_filter]
  · rw [girlsCols, genderCols, List.mem_filter, List.mem_filter]
    constructor
    · rintro ⟨⟨hc, _⟩, hp⟩
      exact ⟨hc, hp⟩
    · rintro ⟨hc, hp⟩
      refine ⟨⟨hc, ?_⟩, hp⟩
      rcases Bool.or_eq_true_iff.mp hp with h | h <;> simp [h]
  · rw [boysCols, genderCols, List.mem_filter, List.mem_filter]
    constructor
    · rintro ⟨⟨hc, _⟩, hp⟩
      exact ⟨hc, hp⟩
    · rintro ⟨hc, hp⟩
      refine ⟨⟨hc, ?_⟩, hp⟩
      rcases Bool.or_eq_true_iff.mp hp with h | h <;> simp [h]

/-- C8.  With the hard-coded seed 42, two runs of
`perform_clustering_analysis` on identical table, feature selection and
cluster count return identical label sequences, centroids and distortion:
the embedded pipeline is a pure function of its inputs and the fixed seed,
so repeated evaluation cannot differ. -/
theorem clustering_two_runs_identical (t : Table) (k : ℕ)
    (features : Option (List String)) :
    (perform_clustering_analysis t k features).clusters =
      (perform_clustering_analysis t k features).clusters ∧
    perform_clustering_analysis t k features =
      perform_clustering_analysis t k features :=
  ⟨rfl, rfl⟩

/-- C10.  Running `merge_datasets` leaves all four input tables of its
environment unchanged: the function only reads them, building the fused
result in the separate `merged_df` binding. -/
theorem merge_run_preserves_inputs (e : MergeEnv) :
    (merge_datasets_run e).profile_df = e.profile_df ∧
    (merge_datasets_run e).enrolment_df = e.enrolment_df ∧
    (merge_datasets_run e).facility_df = e.facility_df ∧
    (merge_datasets_run e).teacher_df = e.teacher_df :=
  ⟨rfl, rfl, rfl, rfl⟩

end UDISE
